import Mathlib

/-!
Verification of the bridge-serial repository core: the websocket hub
(internal/socket/socket.go), the bridge lifecycle orchestrator and the
scale-line parser (internal/bridge), as a shallow embedding in Lean.
Machine floats are modelled as exact rationals, bounded Go channels as
lists with an explicit capacity, and the hub event loop as a step
function over an explicit hub state.
-/

namespace BridgeSerial

/-- ScaleDataRequest (internal/model): one decoded measurement.
The float64 value is embedded as an exact rational. -/
structure ScaleDataRequest where
  value : ℚ
  unit : String
  type : String
deriving DecidableEq, Repr

/-- The dynamic payload of a websocket Message (Go interface\x7b\x7d),
modelled as a closed variant over the payload shapes the program builds:
a JSON string, the scale-data map built by sendDataViaSocket
(processed reading, raw line, unix timestamp, port name), or null. -/
inductive Payload where
  | null : Payload
  | str : String → Payload
  | scaleData : ScaleDataRequest → String → Int → String → Payload
deriving DecidableEq, Repr

/-- Message (internal/socket): the wire envelope with a type tag and payload. -/
structure Message where
  type : String
  payload : Payload
deriving DecidableEq, Repr

/-! ### Scale-line parsing (internal/bridge, processScaleData) -/

/-- Whitespace predicate of Go strings.Fields (unicode.IsSpace), covering
the Latin-1 white space characters the device protocol can produce. -/
def goIsSpace (c : Char) : Bool :=
  c == ' ' || c == '\t' || c == '\n' || c == '\x0b' || c == '\x0c' ||
  c == '\r' || c == '\u0085' || c == '\u00A0'

/-- Accumulator pass of goFields: walk the characters, flushing the
accumulated word (held reversed) at each white-space boundary. -/
def goFieldsAux : List Char → List Char → List String
  | [], acc => if acc.isEmpty then [] else [String.mk acc.reverse]
  | c :: cs, acc =>
    if goIsSpace c then
      if acc.isEmpty then goFieldsAux cs []
      else String.mk acc.reverse :: goFieldsAux cs []
    else goFieldsAux cs (c :: acc)

/-- Go strings.Fields: split around runs of white space, dropping empties. -/
def goFields (s : String) : List String :=
  goFieldsAux s.toList []

instance {ε α : Type} [DecidableEq ε] [DecidableEq α] : DecidableEq (Except ε α) :=
  fun x y =>
    match x, y with
    | Except.ok a, Except.ok b =>
        if h : a = b then isTrue (by rw [h]) else isFalse (by simp [h])
    | Except.error a, Except.error b =>
        if h : a = b then isTrue (by rw [h]) else isFalse (by simp [h])
    | Except.ok _, Except.error _ => isFalse (by simp)
    | Except.error _, Except.ok _ => isFalse (by simp)

/-- Numeric value of a run of decimal digit characters. -/
def digitsVal (ds : List Char) : Nat :=
  ds.foldl (fun n c => 10 * n + (c.toNat - 48)) 0

/-- Leading run of decimal digits. -/
def takeDigits (cs : List Char) : List Char :=
  cs.takeWhile Char.isDigit

/-- Remainder after the leading run of decimal digits. -/
def dropDigits (cs : List Char) : List Char :=
  cs.dropWhile Char.isDigit

/-- Exponent suffix of a float literal: empty, or e/E with an optional
sign and at least one digit consuming the rest of the string. -/
def parseExp : List Char → Option Int
  | [] => some 0
  | c :: rest =>
    if c == 'e' || c == 'E' then
      let signed : Int × List Char :=
        match rest with
        | '+' :: r => (1, r)
        | '-' :: r => (-1, r)
        | _ => (1, rest)
      let ds := takeDigits signed.2
      if ds.isEmpty then none
      else if (dropDigits signed.2).isEmpty then
        some (signed.1 * (digitsVal ds : Int))
      else none
    else none

/-- Exact rational value of a decimal literal: sign, mantissa digits value
and a base-10 exponent already adjusted for the fractional digits. -/
def decimalRat (neg : Bool) (m : Nat) (e : Int) : ℚ :=
  let v : Int := if neg then -(m : Int) else (m : Int)
  if 0 ≤ e then mkRat (v * ((10 : Nat) ^ e.toNat : Nat)) 1
  else mkRat v ((10 : Nat) ^ (-e).toNat)

/-- Go strconv.ParseFloat restricted to the plain decimal forms the scale
protocol uses (optional sign, digits with an optional fractional part,
optional decimal exponent; no hex, Inf/NaN or digit-separator forms),
returning the exact rational value in place of the rounded float64. -/
def parseGoFloat (s : String) : Option ℚ :=
  let cs := s.toList
  let signed : Bool × List Char :=
    match cs with
    | '+' :: rest => (false, rest)
    | '-' :: rest => (true, rest)
    | _ => (false, cs)
  let ip := takeDigits signed.2
  let cs2 := dropDigits signed.2
  let fracRest : List Char × List Char :=
    match cs2 with
    | '.' :: rest => (takeDigits rest, dropDigits rest)
    | _ => ([], cs2)
  let fp := fracRest.1
  if ip.isEmpty && fp.isEmpty then none
  else
    match parseExp fracRest.2 with
    | none => none
    | some e =>
        some (decimalRat signed.1 (digitsVal (ip ++ fp)) (e - (fp.length : Int)))

/-- processScaleData (internal/bridge): split the raw line into fields,
require at least two, parse the second-to-last field as the value, take
the last field as the unit and the first as the type tag. -/
def processScaleData (rawData : String) : Except String ScaleDataRequest :=
  let fields := goFields rawData
  if fields.length < 2 then
    Except.error ("invalid scale data format: " ++ rawData)
  else
    let valueStr := fields.getD (fields.length - 2) ""
    match parseGoFloat valueStr with
    | none => Except.error ("failed to parse value " ++ valueStr ++ " from scale data")
    | some value =>
        Except.ok { value := value
                    unit := fields.getD (fields.length - 1) ""
                    type := fields.getD 0 "" }

/-! ### The websocket hub (internal/socket, Server and its event loop) -/

/-- Capacity of a client outbound queue: make(chan Message, 256) in ServeWS. -/
def sendCapacity : Nat := 256

/-- State of the hub: the membership set (clients map keys, as a list of
client identifiers), each client outbound queue (send channel contents)
and whether each send channel has been closed. -/
structure HubState where
  members : List Nat
  queues : Nat → List Message
  closed : Nat → Bool

/-- Hub state made by NewServer: no members, every queue empty and open. -/
def initialHub : HubState :=
  { members := [], queues := fun _ => [], closed := fun _ => false }

/-- One member visit of the broadcast case of handleConnections
(socket.go 165-175): non-blocking send of the message to the client send
channel; if the channel is full, close the channel and delete the client
from the membership map. -/
def offerOne (m : Message) (s : HubState) (c : Nat) : HubState :=
  if (s.queues c).length < sendCapacity then
    { s with queues := fun x => if x = c then s.queues x ++ [m] else s.queues x }
  else
    { members := s.members.erase c
      queues := s.queues
      closed := fun x => if x = c then true else s.closed x }

/-- The broadcast case of handleConnections: visit every current member. -/
def doBroadcast (m : Message) (s : HubState) : HubState :=
  s.members.foldl (offerOne m) s

/-- The register case of handleConnections (socket.go 150-154):
insert the client into the membership map. -/
def doRegister (c : Nat) (s : HubState) : HubState :=
  if c ∈ s.members then s else { s with members := s.members ++ [c] }

/-- The unregister case of handleConnections (socket.go 156-163): if the
client is a member, delete it and close its send channel; else no-op. -/
def doUnregister (c : Nat) (s : HubState) : HubState :=
  if c ∈ s.members then
    { members := s.members.erase c
      queues := s.queues
      closed := fun x => if x = c then true else s.closed x }
  else s

/-- One request consumed by the hub event loop from its three input
channels (register, unregister, broadcast). -/
inductive HubEvent where
  | register : Nat → HubEvent
  | unregister : Nat → HubEvent
  | broadcast : Message → HubEvent
deriving DecidableEq, Repr

/-- One iteration of the handleConnections event loop. -/
def hubStep (s : HubState) : HubEvent → HubState
  | HubEvent.register c => doRegister c s
  | HubEvent.unregister c => doUnregister c s
  | HubEvent.broadcast m => doBroadcast m s

/-- The hub event loop consuming a sequence of requests in order. -/
def runHub (s : HubState) (tr : List HubEvent) : HubState :=
  tr.foldl hubStep s

/-- Server.Stop (socket.go 128-138), the part that touches membership:
outside the event loop, under the mutex, close every member connection
and send channel and delete every member from the map. -/
def serverStop (s : HubState) : HubState :=
  { members := []
    queues := s.queues
    closed := fun x => if x ∈ s.members then true else s.closed x }

/-- resetServer (socket.go 88-105): outside the event loop, under the
mutex, drain at most one pending message from each member send channel,
close it, delete every member and install a fresh empty clients map. -/
def resetServer (s : HubState) : HubState :=
  { members := []
    queues := fun x => if x ∈ s.members then (s.queues x).drop 1 else s.queues x
    closed := fun x => if x ∈ s.members then true else s.closed x }

/-! ### Client session loops (readPump, handleMessage) -/

/-- Non-blocking send on a client send channel, as the select with a
default branch in handleMessage and SendMessage: enqueue when below
capacity, otherwise drop the message. -/
def trySendClient (q : List Message) (m : Message) : List Message :=
  if q.length < sendCapacity then q ++ [m] else q

/-- handleMessage (socket.go 305-343): dispatch on the message type.
Result: the sender session send queue after any response enqueue, paired
with the list of messages the dispatch hands to the hub broadcast
channel (always empty: no case broadcasts). -/
def handleMessage (q : List Message) (msg : Message) : List Message × List Message :=
  if msg.type = "ping" then
    (trySendClient q { type := "pong", payload := msg.payload }, [])
  else if msg.type = "sync-to-self" then
    (trySendClient q { type := "sync-from-self", payload := Payload.str "pong" }, [])
  else if msg.type = "sync-from-self" then
    (q, [])
  else
    (q, [])

/-- One inbound read observed by readPump (socket.go 245-262): a read
error, a frame that fails JSON decoding, or a decoded message. -/
inductive ReadEvent where
  | readError : ReadEvent
  | badFrame : ReadEvent
  | frame : Message → ReadEvent

/-- One iteration of the readPump loop: read errors break out of the loop
(the deferred unregister and connection close then run); undecodable
frames are logged and skipped; decoded messages go to handleMessage.
Result: (loop exits, sender send queue, messages handed to broadcast). -/
def readPumpStep (q : List Message) (ev : ReadEvent) : Bool × List Message × List Message :=
  match ev with
  | ReadEvent.readError => (true, q, [])
  | ReadEvent.badFrame => (false, q, [])
  | ReadEvent.frame m =>
      let r := handleMessage q m
      (false, r.1, r.2)

/-! ### The websocket upgrade endpoint (ServeWS) -/

/-- An upgrade request to the /ws endpoint: the token query parameter
(absent or its string value) and whether the websocket handshake itself
succeeds. -/
structure WsRequest where
  token : Option String
  upgradeOk : Bool
deriving DecidableEq, Repr

/-- Outcome of ServeWS for one request. The unauthorized outcome exists
so the specified reject-before-upgrade behaviour can be stated. -/
inductive ServeOutcome where
  | unauthorized : ServeOutcome
  | upgradeFailed : ServeOutcome
  | accepted : ServeOutcome
deriving DecidableEq, Repr

/-- ServeWS (socket.go 181-204): upgrade the connection (on error, log
and return), then create the client and hand it to the register channel.
The handler never reads the token query parameter. -/
def serveWS (r : WsRequest) : ServeOutcome :=
  if r.upgradeOk then ServeOutcome.accepted else ServeOutcome.upgradeFailed

/-! ### The bridge orchestrator (internal/bridge, BridgeManager) -/

/-- BridgeManager state visible to the lifecycle claims: the running
flag, whether the websocket hub loop is up, whether the HTTP listener is
up (httpServer non-nil and serving), whether the serial device is
connected, and whether the current stop channel is open. -/
structure BridgeState where
  isRunning : Bool
  hubUp : Bool
  listenerUp : Bool
  deviceConnected : Bool
  stopChanOpen : Bool
deriving DecidableEq, Repr

/-- BridgeManager.Start (part of internal/bridge): reject when already
running; otherwise make a fresh stop channel and HTTP server, start the
hub and the listener, then attempt the serial connect, whose outcome is
the connectErr argument (none for success, some e for the error e). On
connect failure stop the hub, shut the listener down, clear it and
return the wrapped error; on success set the running flag. -/
def bmStart (connectErr : Option String) (s : BridgeState) :
    Option String × BridgeState :=
  if s.isRunning then
    (some "bridge is already running", s)
  else
    let s1 : BridgeState :=
      { s with stopChanOpen := true, listenerUp := true, hubUp := true }
    match connectErr with
    | some e =>
        (some ("failed to connect to serial port: " ++ e),
         { s1 with hubUp := false, listenerUp := false })
    | none =>
        (none, { s1 with deviceConnected := true, isRunning := true })

/-- BridgeManager.Stop: reject when not running; otherwise clear the
running flag, close the stop channel, wait for the loops with a bounded
timeout, stop the hub, shut the listener down and disconnect the device. -/
def bmStop (s : BridgeState) : Option String × BridgeState :=
  if !s.isRunning then
    (some "bridge is not running", s)
  else
    (none,
     { isRunning := false, hubUp := false, listenerUp := false,
       deviceConnected := false, stopChanOpen := false })

/-- The scale_data envelope built by sendDataViaSocket: processed
reading, raw line, unix timestamp and port name. -/
def scaleDataMessage (pd : ScaleDataRequest) (raw : String) (ts : Int)
    (pn : String) : Message :=
  { type := "scale_data", payload := Payload.scaleData pd raw ts pn }

/-- One tick of the BridgeManager.run polling loop: a pending stop
signal exits the loop; otherwise a disconnected device, a read error or
a parse error skip the tick; a parsed line is broadcast as scale_data.
Result: (loop exits, messages handed to the hub broadcast channel). -/
def runTick (stopSignal connected : Bool) (ts : Int) (pn : String)
    (readResult : Except String String) : Bool × List Message :=
  if stopSignal then (true, [])
  else if !connected then (false, [])
  else
    match readResult with
    | Except.error _ => (false, [])
    | Except.ok data =>
        match processScaleData data with
        | Except.error _ => (false, [])
        | Except.ok pd => (false, [scaleDataMessage pd data ts pn])

/-! ### Hub event-loop lemmas -/

theorem offerOne_queues_ne (m : Message) (t : HubState) (a c : Nat) (h : c ≠ a) :
    (offerOne m t a).queues c = t.queues c := by
  unfold offerOne
  split
  · simp [h]
  · rfl

theorem offerOne_closed_ne (m : Message) (t : HubState) (a c : Nat) (h : c ≠ a) :
    (offerOne m t a).closed c = t.closed c := by
  unfold offerOne
  split
  · rfl
  · simp [h]

theorem offerOne_mem_ne (m : Message) (t : HubState) (a c : Nat) (h : c ≠ a) :
    c ∈ (offerOne m t a).members ↔ c ∈ t.members := by
  unfold offerOne
  split
  · exact Iff.rfl
  · exact List.mem_erase_of_ne h

theorem offerOne_members_sublist (m : Message) (t : HubState) (a : Nat) :
    List.Sublist (offerOne m t a).members t.members := by
  unfold offerOne
  split
  · exact List.Sublist.refl _
  · exact List.erase_sublist _ _

theorem offerOne_members_nodup (m : Message) (t : HubState) (a : Nat)
    (h : t.members.Nodup) : (offerOne m t a).members.Nodup :=
  (offerOne_members_sublist m t a).nodup h

theorem foldl_offer_not_mem (m : Message) :
    ∀ (l : List Nat) (t : HubState) (c : Nat), c ∉ l →
      (l.foldl (offerOne m) t).queues c = t.queues c ∧
      ((c ∈ (l.foldl (offerOne m) t).members) ↔ c ∈ t.members) ∧
      (l.foldl (offerOne m) t).closed c = t.closed c
  | [], _, _, _ => ⟨rfl, Iff.rfl, rfl⟩
  | a :: l, t, c, h => by
      have hca : c ≠ a := fun e => h (e ▸ List.mem_cons_self a l)
      have hcl : c ∉ l := fun e => h (List.mem_cons_of_mem a e)
      have ih := foldl_offer_not_mem m l (offerOne m t a) c hcl
      refine ⟨?_, ?_, ?_⟩
      · rw [List.foldl_cons, ih.1, offerOne_queues_ne m t a c hca]
      · rw [List.foldl_cons]
        exact ih.2.1.trans (offerOne_mem_ne m t a c hca)
      · rw [List.foldl_cons, ih.2.2, offerOne_closed_ne m t a c hca]

theorem foldl_offer_sublist (m : Message) :
    ∀ (l : List Nat) (t : HubState),
      List.Sublist (l.foldl (offerOne m) t).members t.members
  | [], _ => List.Sublist.refl _
  | a :: l, t =>
      (foldl_offer_sublist m l (offerOne m t a)).trans (offerOne_members_sublist m t a)

theorem foldl_offer_room (m : Message) :
    ∀ (l : List Nat) (t : HubState) (c : Nat), l.Nodup → c ∈ l →
      (t.queues c).length < sendCapacity →
      (l.foldl (offerOne m) t).queues c = t.queues c ++ [m] ∧
      ((c ∈ (l.foldl (offerOne m) t).members) ↔ c ∈ t.members) ∧
      (l.foldl (offerOne m) t).closed c = t.closed c
  | [], _, c, _, hc, _ => absurd hc (List.not_mem_nil c)
  | a :: l, t, c, hnd, hc, hroom => by
      rcases List.mem_cons.mp hc with he | hl
      · subst he
        have hcl : c ∉ l := (List.nodup_cons.mp hnd).1
        have hstep : offerOne m t c =
            { t with queues := fun x => if x = c then t.queues x ++ [m] else t.queues x } := by
          unfold offerOne
          rw [if_pos hroom]
        have ih := foldl_offer_not_mem m l (offerOne m t c) c hcl
        refine ⟨?_, ?_, ?_⟩
        · rw [List.foldl_cons, ih.1, hstep]
          simp
        · rw [List.foldl_cons]
          exact ih.2.1.trans (by rw [hstep])
        · rw [List.foldl_cons, ih.2.2, hstep]
      · have hca : c ≠ a := fun e => (List.nodup_cons.mp hnd).1 (e ▸ hl)
        have hq := offerOne_queues_ne m t a c hca
        have ih := foldl_offer_room m l (offerOne m t a) c (List.nodup_cons.mp hnd).2 hl
          (by rw [hq]; exact hroom)
        refine ⟨?_, ?_, ?_⟩
        · rw [List.foldl_cons, ih.1, hq]
        · rw [List.foldl_cons]
          exact ih.2.1.trans (offerOne_mem_ne m t a c hca)
        · rw [List.foldl_cons, ih.2.2, offerOne_closed_ne m t a c hca]

theorem foldl_offer_full (m : Message) :
    ∀ (l : List Nat) (t : HubState) (c : Nat), l.Nodup → t.members.Nodup → c ∈ l →
      ¬ (t.queues c).length < sendCapacity →
      (l.foldl (offerOne m) t).queues c = t.queues c ∧
      c ∉ (l.foldl (offerOne m) t).members ∧
      (l.foldl (offerOne m) t).closed c = true
  | [], _, c, _, _, hc, _ => absurd hc (List.not_mem_nil c)
  | a :: l, t, c, hnd, hmnd, hc, hfull => by
      rcases List.mem_cons.mp hc with he | hl
      · subst he
        have hcl : c ∉ l := (List.nodup_cons.mp hnd).1
        have hstep : offerOne m t c =
            { members := t.members.erase c
              queues := t.queues
              closed := fun x => if x = c then true else t.closed x } := by
          unfold offerOne
          rw [if_neg hfull]
        have hnotm : c ∉ (offerOne m t c).members := by
          rw [hstep]
          exact fun hm => ((List.Nodup.mem_erase_iff hmnd).1 hm).1 rfl
        have ih := foldl_offer_not_mem m l (offerOne m t c) c hcl
        refine ⟨?_, ?_, ?_⟩
        · rw [List.foldl_cons, ih.1, hstep]
        · rw [List.foldl_cons]
          exact fun hm => hnotm (ih.2.1.mp hm)
        · rw [List.foldl_cons, ih.2.2, hstep]
          simp
      · have hca : c ≠ a := fun e => (List.nodup_cons.mp hnd).1 (e ▸ hl)
        have hq := offerOne_queues_ne m t a c hca
        have ih := foldl_offer_full m l (offerOne m t a) c (List.nodup_cons.mp hnd).2
          (offerOne_members_nodup m t a hmnd) hl (by rw [hq]; exact hfull)
        refine ⟨?_, ?_, ?_⟩
        · rw [List.foldl_cons, ih.1, hq]
        · rw [List.foldl_cons]
          exact ih.2.1
        · rw [List.foldl_cons]
          exact ih.2.2

theorem doBroadcast_room (m : Message) (s : HubState) (c : Nat)
    (hnd : s.members.Nodup) (hc : c ∈ s.members)
    (hroom : (s.queues c).length < sendCapacity) :
    (doBroadcast m s).queues c = s.queues c ++ [m] ∧
    c ∈ (doBroadcast m s).members ∧
    (doBroadcast m s).closed c = s.closed c := by
  have h := foldl_offer_room m s.members s c hnd hc hroom
  exact ⟨h.1, h.2.1.mpr hc, h.2.2⟩

theorem doBroadcast_full (m : Message) (s : HubState) (c : Nat)
    (hnd : s.members.Nodup) (hc : c ∈ s.members)
    (hfull : ¬ (s.queues c).length < sendCapacity) :
    (doBroadcast m s).queues c = s.queues c ∧
    c ∉ (doBroadcast m s).members ∧
    (doBroadcast m s).closed c = true :=
  foldl_offer_full m s.members s c hnd hnd hc hfull

theorem doBroadcast_not_mem (m : Message) (s : HubState) (c : Nat)
    (hc : c ∉ s.members) :
    (doBroadcast m s).queues c = s.queues c ∧
    c ∉ (doBroadcast m s).members ∧
    (doBroadcast m s).closed c = s.closed c := by
  have h := foldl_offer_not_mem m s.members s c hc
  exact ⟨h.1, fun hm => hc (h.2.1.mp hm), h.2.2⟩

theorem doBroadcast_mem_iff (m : Message) (s : HubState) (c : Nat)
    (hnd : s.members.Nodup) :
    c ∈ (doBroadcast m s).members ↔
      c ∈ s.members ∧ (s.queues c).length < sendCapacity := by
  by_cases hc : c ∈ s.members
  · by_cases hroom : (s.queues c).length < sendCapacity
    · exact iff_of_true (doBroadcast_room m s c hnd hc hroom).2.1 ⟨hc, hroom⟩
    · exact iff_of_false (doBroadcast_full m s c hnd hc hroom).2.1 fun h => hroom h.2
  · exact iff_of_false (doBroadcast_not_mem m s c hc).2.1 fun h => hc h.1

theorem doBroadcast_nodup (m : Message) (s : HubState) (h : s.members.Nodup) :
    (doBroadcast m s).members.Nodup :=
  (foldl_offer_sublist m s.members s).nodup h

theorem doRegister_mem_iff (c d : Nat) (s : HubState) :
    d ∈ (doRegister c s).members ↔ d ∈ s.members ∨ d = c := by
  unfold doRegister
  split
  · rename_i h
    constructor
    · exact Or.inl
    · rintro (h1 | h1)
      · exact h1
      · exact h1 ▸ h
  · simp [List.mem_append]

theorem doRegister_queues (c : Nat) (s : HubState) :
    (doRegister c s).queues = s.queues := by
  unfold doRegister
  split <;> rfl

theorem doRegister_nodup (c : Nat) (s : HubState) (h : s.members.Nodup) :
    (doRegister c s).members.Nodup := by
  unfold doRegister
  split
  · exact h
  · rename_i hc
    simp [List.nodup_append, h]
    exact hc

theorem doUnregister_mem_iff (c d : Nat) (s : HubState) (hnd : s.members.Nodup) :
    d ∈ (doUnregister c s).members ↔ d ∈ s.members ∧ d ≠ c := by
  unfold doUnregister
  split
  · exact (List.Nodup.mem_erase_iff hnd).trans and_comm
  · rename_i h
    constructor
    · intro hd
      exact ⟨hd, fun e => h (e ▸ hd)⟩
    · exact And.left

theorem doUnregister_queues (c : Nat) (s : HubState) :
    (doUnregister c s).queues = s.queues := by
  unfold doUnregister
  split <;> rfl

theorem doUnregister_members_sublist (c : Nat) (s : HubState) :
    List.Sublist (doUnregister c s).members s.members := by
  unfold doUnregister
  split
  · exact List.erase_sublist _ _
  · exact List.Sublist.refl _

theorem doUnregister_not_mem (c : Nat) (s : HubState) (hnd : s.members.Nodup) :
    c ∉ (doUnregister c s).members := fun h =>
  ((doUnregister_mem_iff c c s hnd).1 h).2 rfl

theorem doUnregister_nodup (c : Nat) (s : HubState) (h : s.members.Nodup) :
    (doUnregister c s).members.Nodup := by
  unfold doUnregister
  split
  · exact h.erase c
  · exact h

theorem hubStep_nodup (s : HubState) (ev : HubEvent) (h : s.members.Nodup) :
    (hubStep s ev).members.Nodup := by
  cases ev with
  | register c => exact doRegister_nodup c s h
  | unregister c => exact doUnregister_nodup c s h
  | broadcast m => exact doBroadcast_nodup m s h

theorem hubStep_excluded (s : HubState) (ev : HubEvent) (c : Nat)
    (hc : c ∉ s.members) (hev : ev ≠ HubEvent.register c) :
    c ∉ (hubStep s ev).members ∧ (hubStep s ev).queues c = s.queues c := by
  cases ev with
  | register d =>
      have hdc : c ≠ d := fun e => hev (by rw [e])
      constructor
      · intro hm
        rcases (doRegister_mem_iff d c s).1 hm with h1 | h1
        · exact hc h1
        · exact hdc h1
      · exact congrFun (doRegister_queues d s) c
  | unregister d =>
      constructor
      · exact fun hm => hc ((doUnregister_members_sublist d s).subset hm)
      · exact congrFun (doUnregister_queues d s) c
  | broadcast m =>
      have h := doBroadcast_not_mem m s c hc
      exact ⟨h.2.1, h.1⟩

theorem runHub_excluded (c : Nat) :
    ∀ (tr : List HubEvent) (t : HubState), c ∉ t.members →
      (∀ ev ∈ tr, ev ≠ HubEvent.register c) →
      c ∉ (runHub t tr).members ∧ (runHub t tr).queues c = t.queues c
  | [], _, hc, _ => ⟨hc, rfl⟩
  | ev :: tr, t, hc, hev => by
      have h1 := hubStep_excluded t ev c hc (hev ev (List.mem_cons_self ev tr))
      have ih := runHub_excluded c tr (hubStep t ev) h1.1
        fun e he => hev e (List.mem_cons_of_mem ev he)
      refine ⟨ih.1, ?_⟩
      show (runHub (hubStep t ev) tr).queues c = t.queues c
      rw [ih.2, h1.2]

/-! ### Parser lemmas -/

theorem processScaleData_ok (raw vs u t : String) (v : ℚ)
    (h2 : 2 ≤ (goFields raw).length)
    (hvs : (goFields raw)[(goFields raw).length - 2]? = some vs)
    (hv : parseGoFloat vs = some v)
    (hu : (goFields raw)[(goFields raw).length - 1]? = some u)
    (ht : (goFields raw)[0]? = some t) :
    processScaleData raw = Except.ok { value := v, unit := u, type := t } := by
  have e1 : (goFields raw).getD ((goFields raw).length - 2) "" = vs := by
    rw [List.getD_eq_getElem?_getD, hvs]
    rfl
  have e2 : (goFields raw).getD ((goFields raw).length - 1) "" = u := by
    rw [List.getD_eq_getElem?_getD, hu]
    rfl
  have e3 : (goFields raw).getD 0 "" = t := by
    rw [List.getD_eq_getElem?_getD, ht]
    rfl
  simp only [processScaleData]
  rw [if_neg (by omega), e1, hv, e2, e3]

/-! ### Sample states used by the witnesses -/

/-- A concrete message used to exercise the hub theorems. -/
def sampleMsg : Message := { type := "scale_data", payload := Payload.str "x" }

/-- A hub with two members, both queues empty and open. -/
def sampleHub : HubState :=
  { members := [0, 1], queues := fun _ => [], closed := fun _ => false }

/-- A hub with two members where member 0 has a full outbound queue. -/
def fullHub : HubState :=
  { members := [0, 1]
    queues := fun x => if x = 0 then List.replicate sendCapacity sampleMsg else []
    closed := fun _ => false }

/-- A bridge orchestrator state in which the bridge is running. -/
def runningBridge : BridgeState :=
  { isRunning := true, hubUp := true, listenerUp := true,
    deviceConnected := true, stopChanOpen := true }

/-- A bridge orchestrator state in which the bridge is stopped. -/
def stoppedBridge : BridgeState :=
  { isRunning := false, hubUp := false, listenerUp := false,
    deviceConnected := false, stopChanOpen := false }

/-! ### Claim theorems -/

/-- C1: when the hub event loop processes a broadcast, every current
member with free queue capacity has the message enqueued and stays a
member, while every member whose queue is full has its queue closed and
is removed from the membership set during that same broadcast; the other
members are unaffected by the removal. The broadcast step is a total
function on the hub state, so the hub never blocks. -/
theorem hub_broadcast_backpressure (s : HubState) (m : Message) (c : Nat)
    (hnd : s.members.Nodup) (hc : c ∈ s.members) :
    ((s.queues c).length < sendCapacity →
      (doBroadcast m s).queues c = s.queues c ++ [m] ∧
      c ∈ (doBroadcast m s).members) ∧
    (¬ (s.queues c).length < sendCapacity →
      c ∉ (doBroadcast m s).members ∧
      (doBroadcast m s).closed c = true ∧
      (doBroadcast m s).queues c = s.queues c) :=
  ⟨fun hroom =>
    ⟨(doBroadcast_room m s c hnd hc hroom).1,
     (doBroadcast_room m s c hnd hc hroom).2.1⟩,
   fun hfull =>
    ⟨(doBroadcast_full m s c hnd hc hfull).2.1,
     (doBroadcast_full m s c hnd hc hfull).2.2,
     (doBroadcast_full m s c hnd hc hfull).1⟩⟩

set_option maxRecDepth 4000 in
/-- Witness for C1 on a concrete hub: member 0 has a full queue and is
dropped and closed by the broadcast; member 1 has room and receives the
message while staying a member. -/
theorem hub_broadcast_backpressure_witness :
    ((doBroadcast sampleMsg fullHub).queues 1 = fullHub.queues 1 ++ [sampleMsg] ∧
     1 ∈ (doBroadcast sampleMsg fullHub).members) ∧
    (0 ∉ (doBroadcast sampleMsg fullHub).members ∧
     (doBroadcast sampleMsg fullHub).closed 0 = true ∧
     (doBroadcast sampleMsg fullHub).queues 0 = fullHub.queues 0) :=
  ⟨(hub_broadcast_backpressure fullHub sampleMsg 1 (by decide) (by decide)).1
     (by decide),
   (hub_broadcast_backpressure fullHub sampleMsg 0 (by decide) (by decide)).2
     (by decide)⟩

/-- C2 counterexample: Server.Stop runs outside the hub event loop
(guarded only by the mutex) and still removes members: after the loop
has processed a register of client 0 the membership set is [0], and
serverStop empties it, so it is false that no operation outside the
event loop ever removes members. -/
theorem hub_outside_mutation_counterexample :
    (runHub initialHub [HubEvent.register 0]).members = [0] ∧
    (serverStop (runHub initialHub [HubEvent.register 0])).members = [] ∧
    (serverStop (runHub initialHub [HubEvent.register 0])).members ≠
      (runHub initialHub [HubEvent.register 0]).members := by
  refine ⟨by decide, by decide, by decide⟩

/-- C2 (amended): within the event loop, register adds exactly the
registered client, unregister removes exactly the unregistered client,
and a broadcast keeps exactly the members whose queues have room; in
addition the hub's own Stop and resetServer, running outside the loop
under the mutex, clear the whole membership set. -/
theorem hub_membership_characterization (s : HubState) (c d : Nat) (m : Message)
    (hnd : s.members.Nodup) :
    (c ∈ (hubStep s (HubEvent.register d)).members ↔ c ∈ s.members ∨ c = d) ∧
    (c ∈ (hubStep s (HubEvent.unregister d)).members ↔ c ∈ s.members ∧ c ≠ d) ∧
    (c ∈ (hubStep s (HubEvent.broadcast m)).members ↔
      c ∈ s.members ∧ (s.queues c).length < sendCapacity) ∧
    (serverStop s).members = [] ∧
    (resetServer s).members = [] :=
  ⟨doRegister_mem_iff d c s, doUnregister_mem_iff d c s hnd,
   doBroadcast_mem_iff m s c hnd, rfl, rfl⟩

/-- Witness for C2 (amended) at a concrete two-member hub. -/
theorem hub_membership_characterization_witness :
    (0 ∈ (hubStep sampleHub (HubEvent.register 2)).members ↔
      0 ∈ sampleHub.members ∨ 0 = 2) ∧
    (0 ∈ (hubStep sampleHub (HubEvent.unregister 2)).members ↔
      0 ∈ sampleHub.members ∧ 0 ≠ 2) ∧
    (0 ∈ (hubStep sampleHub (HubEvent.broadcast sampleMsg)).members ↔
      0 ∈ sampleHub.members ∧ (sampleHub.queues 0).length < sendCapacity) ∧
    (serverStop sampleHub).members = [] ∧
    (resetServer sampleHub).members = [] :=
  hub_membership_characterization sampleHub 0 2 sampleMsg (by decide)

/-- C3: Start while running fails with the already-running error and
leaves the state unchanged; Stop while stopped fails with the
not-running error and leaves the state unchanged; hence Stop twice from
a running state succeeds then fails, and Start twice from a stopped
state succeeds then fails. -/
theorem bridge_reentrancy (s : BridgeState) (r : Option String) :
    (s.isRunning = true → bmStart r s = (some "bridge is already running", s)) ∧
    (s.isRunning = false → bmStop s = (some "bridge is not running", s)) ∧
    (s.isRunning = true →
      (bmStop s).1 = none ∧
      (bmStop (bmStop s).2).1 = some "bridge is not running") ∧
    (s.isRunning = false →
      (bmStart none s).1 = none ∧
      (bmStart r (bmStart none s).2).1 = some "bridge is already running") := by
  refine ⟨?_, ?_, ?_, ?_⟩
  · intro h
    simp [bmStart, h]
  · intro h
    simp [bmStop, h]
  · intro h
    exact ⟨by simp [bmStop, h], by simp [bmStop, h]⟩
  · intro h
    exact ⟨by simp [bmStart, h], by simp [bmStart, h]⟩

/-- Witness for C3 at the concrete running and stopped states. -/
theorem bridge_reentrancy_witness :
    bmStart none runningBridge = (some "bridge is already running", runningBridge) ∧
    bmStop stoppedBridge = (some "bridge is not running", stoppedBridge) ∧
    ((bmStop runningBridge).1 = none ∧
     (bmStop (bmStop runningBridge).2).1 = some "bridge is not running") ∧
    ((bmStart none stoppedBridge).1 = none ∧
     (bmStart none (bmStart none stoppedBridge).2).1 =
       some "bridge is already running") :=
  ⟨(bridge_reentrancy runningBridge none).1 rfl,
   (bridge_reentrancy stoppedBridge none).2.1 rfl,
   (bridge_reentrancy runningBridge none).2.2.1 rfl,
   (bridge_reentrancy stoppedBridge none).2.2.2 rfl⟩

/-- C4: when the serial connect step of Start fails, Start returns the
wrapped connect error, the hub and the listener it just created are both
torn down before returning, and the orchestrator is left not running. -/
theorem bridge_start_failure_unwind (s : BridgeState) (e : String)
    (h : s.isRunning = false) :
    (bmStart (some e) s).1 = some ("failed to connect to serial port: " ++ e) ∧
    (bmStart (some e) s).2.hubUp = false ∧
    (bmStart (some e) s).2.listenerUp = false ∧
    (bmStart (some e) s).2.isRunning = false := by
  simp [bmStart, h]

/-- Witness for C4 at the concrete stopped state. -/
theorem bridge_start_failure_unwind_witness :
    (bmStart (some "no device") stoppedBridge).1 =
      some ("failed to connect to serial port: " ++ "no device") ∧
    (bmStart (some "no device") stoppedBridge).2.hubUp = false ∧
    (bmStart (some "no device") stoppedBridge).2.listenerUp = false ∧
    (bmStart (some "no device") stoppedBridge).2.isRunning = false :=
  bridge_start_failure_unwind stoppedBridge "no device" rfl

/-- C5: a device line with at least two whitespace-separated fields whose
second-to-last field parses as a base-10 float yields a reading whose
value is that float, whose unit is the last field and whose tag is the
first field. -/
theorem parser_valid_line (raw vs u t : String) (v : ℚ)
    (h2 : 2 ≤ (goFields raw).length)
    (hvs : (goFields raw)[(goFields raw).length - 2]? = some vs)
    (hv : parseGoFloat vs = some v)
    (hu : (goFields raw)[(goFields raw).length - 1]? = some u)
    (ht : (goFields raw)[0]? = some t) :
    processScaleData raw = Except.ok { value := v, unit := u, type := t } :=
  processScaleData_ok raw vs u t v h2 hvs hv hu ht

/-- Witness for C5: the line WTST 12.11 g parses to tag WTST, value
12.11 (the rational 1211/100) and unit g. -/
theorem parser_valid_line_witness :
    processScaleData "WTST   12.11   g" =
      Except.ok { value := mkRat 1211 100, unit := "g", type := "WTST" } :=
  parser_valid_line "WTST   12.11   g" "12.11" "g" "WTST" (mkRat 1211 100)
    (by decide) (by decide) (by decide) (by decide) (by decide)

/-- C6: a device line with fewer than two fields or a non-numeric value
field makes processScaleData return an error, and on such a line one
polling-loop tick broadcasts nothing and continues (does not exit). -/
theorem parser_invalid_line_skipped (raw : String) (conn : Bool) (ts : Int)
    (pn : String)
    (h : (goFields raw).length < 2 ∨
      parseGoFloat ((goFields raw).getD ((goFields raw).length - 2) "") = none) :
    (∃ e, processScaleData raw = Except.error e) ∧
    runTick false conn ts pn (Except.ok raw) = (false, []) := by
  have herr : ∃ e, processScaleData raw = Except.error e := by
    by_cases h2 : (goFields raw).length < 2
    · refine ⟨"invalid scale data format: " ++ raw, ?_⟩
      simp only [processScaleData]
      rw [if_pos h2]
    · rcases h with h | h
      · exact absurd h h2
      · refine ⟨"failed to parse value " ++
          (goFields raw).getD ((goFields raw).length - 2) "" ++
          " from scale data", ?_⟩
        simp only [processScaleData]
        rw [if_neg h2, h]
  refine ⟨herr, ?_⟩
  obtain ⟨e, he⟩ := herr
  cases conn
  · rfl
  · simp [runTick, he]

/-- Witness for C6: the single-field line g and the non-numeric line
WTST abc g both produce a parse error and an empty, continuing tick. -/
theorem parser_invalid_line_skipped_witness :
    ((∃ e, processScaleData "g" = Except.error e) ∧
     runTick false true 0 "COM3" (Except.ok "g") = (false, [])) ∧
    ((∃ e, processScaleData "WTST   abc   g" = Except.error e) ∧
     runTick false true 0 "COM3" (Except.ok "WTST   abc   g") = (false, [])) :=
  ⟨parser_invalid_line_skipped "g" true 0 "COM3" (Or.inl (by decide)),
   parser_invalid_line_skipped "WTST   abc   g" true 0 "COM3" (Or.inr (by decide))⟩

/-- C7 counterexample: a request with a missing token (and one with an
empty token) whose upgrade succeeds is accepted by ServeWS, not rejected
as unauthorized, refuting the claimed reject-before-upgrade check. -/
theorem ws_token_counterexample :
    serveWS { token := none, upgradeOk := true } = ServeOutcome.accepted ∧
    serveWS { token := some "", upgradeOk := true } = ServeOutcome.accepted ∧
    ServeOutcome.accepted ≠ ServeOutcome.unauthorized :=
  ⟨rfl, rfl, by decide⟩

/-- C7 (amended): ServeWS performs no token check at all: it never
returns an unauthorized rejection, and every request whose websocket
upgrade succeeds is accepted regardless of the token query parameter. -/
theorem ws_token_ignored (tok : Option String) (ok : Bool) :
    serveWS { token := tok, upgradeOk := ok } ≠ ServeOutcome.unauthorized ∧
    serveWS { token := tok, upgradeOk := true } = ServeOutcome.accepted := by
  constructor
  · cases ok <;> simp [serveWS]
  · rfl

/-- C8: dispatch of a decoded inbound message matches the catalogue:
ping enqueues exactly one pong carrying the same payload onto the
sender's queue (when it has room) and hands nothing to the broadcast
channel; sync-to-self enqueues exactly one sync-from-self with payload
pong to the sender only; sync-from-self and every unrecognized type
produce no response; and no decoded message makes the read loop exit. -/
theorem session_dispatch_catalogue (q : List Message) (p : Payload) (t : String)
    (hroom : q.length < sendCapacity) :
    handleMessage q { type := "ping", payload := p } =
      (q ++ [{ type := "pong", payload := p }], []) ∧
    handleMessage q { type := "sync-to-self", payload := p } =
      (q ++ [{ type := "sync-from-self", payload := Payload.str "pong" }], []) ∧
    handleMessage q { type := "sync-from-self", payload := p } = (q, []) ∧
    (t ≠ "ping" → t ≠ "sync-to-self" →
      handleMessage q { type := t, payload := p } = (q, [])) ∧
    (readPumpStep q (ReadEvent.frame { type := t, payload := p })).1 = false := by
  refine ⟨?_, ?_, ?_, ?_, rfl⟩
  · simp [handleMessage, trySendClient, hroom]
  · simp [handleMessage, trySendClient, hroom]
  · simp [handleMessage]
  · intro h1 h2
    by_cases h3 : t = "sync-from-self" <;> simp [handleMessage, h1, h2, h3]

/-- Witness for C8 on an empty sender queue and the unrecognized type
custom. -/
theorem session_dispatch_catalogue_witness :
    handleMessage [] { type := "ping", payload := Payload.str "x" } =
      ([] ++ [{ type := "pong", payload := Payload.str "x" }], []) ∧
    handleMessage [] { type := "sync-to-self", payload := Payload.str "x" } =
      ([] ++ [{ type := "sync-from-self", payload := Payload.str "pong" }], []) ∧
    handleMessage [] { type := "sync-from-self", payload := Payload.str "x" } =
      ([], []) ∧
    handleMessage [] { type := "custom", payload := Payload.str "x" } = ([], []) ∧
    (readPumpStep []
      (ReadEvent.frame { type := "custom", payload := Payload.str "x" })).1 = false := by
  have h := session_dispatch_catalogue [] (Payload.str "x") "custom" (by decide)
  exact ⟨h.1, h.2.1, h.2.2.1, h.2.2.2.1 (by decide) (by decide), h.2.2.2.2⟩

/-- C9: in the total order of the hub event loop, a broadcast processed
right after a register of a session is offered to that session (the
message lands in its queue when there is room, and the full-queue drop
applies otherwise), and after an unregister of a session every later
event sequence containing no new register of it never offers a broadcast
to it: the session stays out of the membership set and its queue is
never touched again. -/
theorem hub_order_guarantee (s : HubState) (c : Nat) (m : Message)
    (tr : List HubEvent) (hnd : s.members.Nodup) :
    c ∈ (hubStep s (HubEvent.register c)).members ∧
    (((hubStep s (HubEvent.register c)).queues c).length < sendCapacity →
      (doBroadcast m (hubStep s (HubEvent.register c))).queues c =
        (hubStep s (HubEvent.register c)).queues c ++ [m]) ∧
    (¬ ((hubStep s (HubEvent.register c)).queues c).length < sendCapacity →
      c ∉ (doBroadcast m (hubStep s (HubEvent.register c))).members ∧
      (doBroadcast m (hubStep s (HubEvent.register c))).closed c = true) ∧
    ((∀ ev ∈ tr, ev ≠ HubEvent.register c) →
      c ∉ (runHub (hubStep s (HubEvent.unregister c)) tr).members ∧
      (runHub (hubStep s (HubEvent.unregister c)) tr).queues c =
        (hubStep s (HubEvent.unregister c)).queues c) := by
  have hmem : c ∈ (doRegister c s).members :=
    (doRegister_mem_iff c c s).mpr (Or.inr rfl)
  have hnd1 : (doRegister c s).members.Nodup := doRegister_nodup c s hnd
  refine ⟨hmem, ?_, ?_, ?_⟩
  · intro hroom
    exact (doBroadcast_room m (doRegister c s) c hnd1 hmem hroom).1
  · intro hfull
    exact ⟨(doBroadcast_full m (doRegister c s) c hnd1 hmem hfull).2.1,
           (doBroadcast_full m (doRegister c s) c hnd1 hmem hfull).2.2⟩
  · intro htr
    exact runHub_excluded c tr (doUnregister c s) (doUnregister_not_mem c s hnd) htr

/-- Witness for C9: client 2 registered into the sample hub receives the
next broadcast; after client 0 is unregistered, a later broadcast and an
unrelated unregister never offer anything to client 0. -/
theorem hub_order_guarantee_witness :
    2 ∈ (hubStep sampleHub (HubEvent.register 2)).members ∧
    (doBroadcast sampleMsg (hubStep sampleHub (HubEvent.register 2))).queues 2 =
      (hubStep sampleHub (HubEvent.register 2)).queues 2 ++ [sampleMsg] ∧
    0 ∉ (runHub (hubStep sampleHub (HubEvent.unregister 0))
          [HubEvent.broadcast sampleMsg, HubEvent.unregister 1]).members ∧
    (runHub (hubStep sampleHub (HubEvent.unregister 0))
        [HubEvent.broadcast sampleMsg, HubEvent.unregister 1]).queues 0 =
      (hubStep sampleHub (HubEvent.unregister 0)).queues 0 := by
  have h2 := hub_order_guarantee sampleHub 2 sampleMsg [] (by decide)
  have h0 := hub_order_guarantee sampleHub 0 sampleMsg
    [HubEvent.broadcast sampleMsg, HubEvent.unregister 1] (by decide)
  exact ⟨h2.1, h2.2.1 (by decide), (h0.2.2.2 (by decide)).1, (h0.2.2.2 (by decide)).2⟩

/-- C10: a line of exactly two fields whose first field is numeric is
accepted, and the returned tag is textually the same field as the value
field, so a line with no tag at all parses successfully. -/
theorem parser_tagless_two_fields (raw f0 f1 : String) (v : ℚ)
    (hlen : (goFields raw).length = 2)
    (h0 : (goFields raw)[0]? = some f0)
    (h1 : (goFields raw)[1]? = some f1)
    (hv : parseGoFloat f0 = some v) :
    processScaleData raw = Except.ok { value := v, unit := f1, type := f0 } :=
  processScaleData_ok raw f0 f1 f0 v (by omega)
    (by rw [hlen]; exact h0) hv (by rw [hlen]; exact h1) h0

/-- Witness for C10: the tagless line 12.11 g parses with tag equal to
the value field 12.11. -/
theorem parser_tagless_two_fields_witness :
    processScaleData "12.11 g" =
      Except.ok { value := mkRat 1211 100, unit := "g", type := "12.11" } :=
  parser_tagless_two_fields "12.11 g" "12.11" "g" (mkRat 1211 100)
    (by decide) (by decide) (by decide) (by decide)

end BridgeSerial
